import Mathlib

/-!
Shallow embedding of the storage layer of QB-FinanceLog
(`src/assets/js/storage.js`, class `FinanceStorage`) and proofs about the
behaviour of its operations.  JavaScript numbers are idealised as exact
rationals extended with the three non-finite values NaN, Infinity and
-Infinity; nondeterministic inputs (fresh identifiers from `_id`, the wall
clock) are passed as explicit parameters.
-/

namespace QBFin

/-- A JavaScript number: a finite value (idealised as a rational) or one of
the non-finite values NaN, Infinity, -Infinity. -/
inductive JNum where
  | fin (q : ℚ)
  | nan
  | inf
  | ninf
deriving DecidableEq, Repr

/-- Finiteness test on a JavaScript number. -/
def JNum.isFinite : JNum → Bool
  | .fin _ => true
  | _ => false

/-- A JavaScript value arriving at a monetary entry point: a number or a
string. -/
inductive JSVal where
  | num (n : JNum)
  | str (s : String)
deriving DecidableEq, Repr

/-- `String.prototype.trim`: remove leading and trailing whitespace. -/
def jsTrim (s : String) : String :=
  ⟨((s.data.dropWhile Char.isWhitespace).reverse.dropWhile Char.isWhitespace).reverse⟩

/-- Numeric value of a list of decimal digit characters. -/
def digitsToNat (cs : List Char) : ℕ :=
  cs.foldl (fun acc c => 10 * acc + (c.toNat - 48)) 0

/-- Value of a fractional digit string: digits after the decimal point. -/
def fracValue (cs : List Char) : ℚ :=
  (digitsToNat cs : ℚ) / ((10 : ℚ) ^ cs.length)

/-- The regex replacement in `_parseAmount`
(`String(v).replace(/[^\d.-]/g, "")`): delete every character that is not a
decimal digit, a dot or a minus sign. -/
def stripNonNumeric (s : String) : List Char :=
  s.data.filter (fun c => c.isDigit || c == '.' || c == '-')

/-- `parseFloat` applied to a string containing only digits, dots and minus
signs (the output of `stripNonNumeric`): parse the longest prefix that is a
valid decimal literal (optional minus sign, integer digits, optional dot and
fraction digits); `none` models NaN, returned when no prefix parses. -/
def parseFloatStripped (cs : List Char) : Option ℚ :=
  let negAndRest : Bool × List Char :=
    match cs with
    | '-' :: rest => (true, rest)
    | _ => (false, cs)
  let ip := negAndRest.2.takeWhile Char.isDigit
  let r1 := negAndRest.2.dropWhile Char.isDigit
  let fp : List Char :=
    match r1 with
    | '.' :: r2 => r2.takeWhile Char.isDigit
    | _ => []
  if ip = [] ∧ fp = [] then none
  else
    let mag : ℚ := (digitsToNat ip : ℚ) + fracValue fp
    some (if negAndRest.1 then -mag else mag)

/-- `_parseAmount(v)`: a number is used as-is when finite; any other value is
converted to a string, stripped of characters other than digits, dots and
minus signs, and handed to `parseFloat`; a non-finite outcome becomes 0. -/
def parseAmount : JSVal → ℚ
  | .num (.fin q) => q
  | .num _ => 0
  | .str s =>
    match parseFloatStripped (stripNonNumeric s) with
    | some q => q
    | none => 0

/-- `_parseAmount` restricted to an argument that is already a number, as in
`_setAccountBalance` (whose argument is always the result of numeric
arithmetic): finite values pass through, NaN and the infinities become 0. -/
def parseAmountNum : JNum → ℚ
  | .fin q => q
  | _ => 0

/-- Hexadecimal digit test. -/
def isHexDigit (c : Char) : Bool :=
  c.isDigit || ('a' ≤ c && c ≤ 'f') || ('A' ≤ c && c ≤ 'F')

/-- Value of a hexadecimal digit character. -/
def hexVal (c : Char) : ℕ :=
  if c.isDigit then c.toNat - 48
  else if 'a' ≤ c then c.toNat - 87
  else c.toNat - 55

/-- Value of a digit string in a given base. -/
def digitsToNatBase (b : ℕ) (val : Char → ℕ) (cs : List Char) : ℕ :=
  cs.foldl (fun acc c => b * acc + val c) 0

/-- Exponent part of a strict decimal literal (after the `e`/`E`). -/
def parseExpPart (sgn : ℚ) (mag : ℚ) (cs : List Char) : Option ℚ :=
  let esgnAndRest : ℤ × List Char :=
    match cs with
    | '+' :: r => (1, r)
    | '-' :: r => (-1, r)
    | _ => (1, cs)
  if esgnAndRest.2 ≠ [] ∧ esgnAndRest.2.all Char.isDigit then
    some (sgn * mag * (10 : ℚ) ^ (esgnAndRest.1 * (digitsToNat esgnAndRest.2 : ℤ)))
  else none

/-- A strict decimal numeric literal consuming the whole string: optional
sign, digits with optional dot and fraction, optional exponent.  `none`
models NaN. -/
def parseDecimalStrict (cs : List Char) : Option ℚ :=
  let sgnAndRest : ℚ × List Char :=
    match cs with
    | '+' :: r => (1, r)
    | '-' :: r => (-1, r)
    | _ => (1, cs)
  let ip := sgnAndRest.2.takeWhile Char.isDigit
  let r1 := sgnAndRest.2.dropWhile Char.isDigit
  let fpAndRest : List Char × List Char :=
    match r1 with
    | '.' :: r2 => (r2.takeWhile Char.isDigit, r2.dropWhile Char.isDigit)
    | _ => ([], r1)
  if ip = [] ∧ fpAndRest.1 = [] then none
  else
    let mag : ℚ := (digitsToNat ip : ℚ) + fracValue fpAndRest.1
    match fpAndRest.2 with
    | [] => some (sgnAndRest.1 * mag)
    | 'e' :: r3 => parseExpPart sgnAndRest.1 mag r3
    | 'E' :: r3 => parseExpPart sgnAndRest.1 mag r3
    | _ => none

/-- `Number(string)` coercion, as performed by the global `isFinite` used in
`updateAccount`: trim whitespace, the empty string is 0, `Infinity` forms are
recognised, `0x`/`0X`/`0b`/`0B`/`0o`/`0O` radix literals (no sign allowed),
otherwise a strict decimal literal; anything else is NaN. -/
def jsNumberOfString (s : String) : JNum :=
  let t := jsTrim s
  if t = "" then .fin 0
  else if t = "Infinity" || t = "+Infinity" then .inf
  else if t = "-Infinity" then .ninf
  else
    match t.data with
    | '0' :: 'x' :: r =>
      if r ≠ [] ∧ r.all isHexDigit then .fin (digitsToNatBase 16 hexVal r) else .nan
    | '0' :: 'X' :: r =>
      if r ≠ [] ∧ r.all isHexDigit then .fin (digitsToNatBase 16 hexVal r) else .nan
    | '0' :: 'b' :: r =>
      if r ≠ [] ∧ r.all (fun c => c == '0' || c == '1') then
        .fin (digitsToNatBase 2 (fun c => c.toNat - 48) r) else .nan
    | '0' :: 'B' :: r =>
      if r ≠ [] ∧ r.all (fun c => c == '0' || c == '1') then
        .fin (digitsToNatBase 2 (fun c => c.toNat - 48) r) else .nan
    | '0' :: 'o' :: r =>
      if r ≠ [] ∧ r.all (fun c => '0' ≤ c && c ≤ '7') then
        .fin (digitsToNatBase 8 (fun c => c.toNat - 48) r) else .nan
    | '0' :: 'O' :: r =>
      if r ≠ [] ∧ r.all (fun c => '0' ≤ c && c ≤ '7') then
        .fin (digitsToNatBase 8 (fun c => c.toNat - 48) r) else .nan
    | cs =>
      match parseDecimalStrict cs with
      | some q => .fin q
      | none => .nan

/-- Coercion of a JavaScript value to a number (`Number(v)`). -/
def jsToNumber : JSVal → JNum
  | .num n => n
  | .str s => jsNumberOfString s

/-- The global `isFinite(v)`: coerce to a number, then test finiteness. -/
def jsIsFinite (v : JSVal) : Bool :=
  (jsToNumber v).isFinite

/-- JavaScript `x || 0` on a rational-valued balance: 0 is the only falsy
rational, and it is replaced by 0 itself, so this is the identity; kept to
mirror `(acc.balance || 0)` in the source. -/
def jsOrZero (q : ℚ) : ℚ :=
  if q = 0 then 0 else q

/-- Days from a proleptic Gregorian civil date (month 1..12) to days since
1970-01-01, following the standard civil-to-days algorithm; this is the day
arithmetic of `new Date(year, month, day)`. -/
def civilToEpochDay (y m d : ℤ) : ℤ :=
  let y1 := if m ≤ 2 then y - 1 else y
  let era := y1.fdiv 400
  let yoe := y1 - era * 400
  let mp := if m > 2 then m - 3 else m + 9
  let doy := (153 * mp + 2).fdiv 5 + d - 1
  let doe := yoe * 365 + yoe.fdiv 4 - yoe.fdiv 100 + doy
  era * 146097 + doe - 719468

/-- A calendar day, the content of a `YYYY-MM-DD` transaction date string
(month 1..12). -/
structure Civil where
  year : ℤ
  month : ℤ
  day : ℤ
deriving DecidableEq, Repr

/-- Milliseconds since the epoch of `new Date("YYYY-MM-DD")`: midnight of
that day. -/
def Civil.ms (c : Civil) : ℤ :=
  civilToEpochDay c.year c.month c.day * 86400000

/-- The current date and time, through the `Date` getters `_startOfPeriod`
uses: calendar year, zero-based month (`getMonth`, 0..11), day of month
(`getDate`) and milliseconds since midnight. -/
structure Now where
  year : ℤ
  month0 : ℤ
  dom : ℤ
  msOfDay : ℤ
deriving DecidableEq, Repr

/-- Days since the epoch of the current day. -/
def Now.epochDay (n : Now) : ℤ :=
  civilToEpochDay n.year (n.month0 + 1) n.dom

/-- `getDay()`: weekday, 0 = Sunday .. 6 = Saturday (1970-01-01 was a
Thursday, weekday 4). -/
def Now.getDay (n : Now) : ℤ :=
  (n.epochDay + 4) % 7

/-- `_startOfPeriod(period)`, in milliseconds since the epoch: midnight today
for "day"; midnight of the most recent Monday (`(getDay()+6)%7` days back)
for "week"; `new Date(year, month, 1)` for "month"; `new Date(year, 0, 1)`
for "year"; `new Date(0)` otherwise. -/
def startOfPeriod (period : String) (now : Now) : ℤ :=
  if period = "day" then now.epochDay * 86400000
  else if period = "week" then
    let day := (now.getDay + 6) % 7
    (now.epochDay - day) * 86400000
  else if period = "month" then civilToEpochDay now.year (now.month0 + 1) 1 * 86400000
  else if period = "year" then civilToEpochDay now.year 1 1 * 86400000
  else 0

/-- A stored account. -/
structure Account where
  id : String
  name : String
  type : String
  initialBalance : ℚ
  balance : ℚ
  createdAt : String
deriving DecidableEq, Repr

/-- A stored transaction; `accountId` and `accountName` are denormalised from
the resolved account. -/
structure Transaction where
  id : String
  type : String
  amount : ℚ
  description : String
  category : String
  accountId : String
  accountName : String
  date : Civil
  notes : String
  createdAt : String
deriving DecidableEq, Repr

/-- A stored debt; `accountId` is null (`none`) when no account was linked at
creation. -/
structure Debt where
  id : String
  type : String
  personId : String
  amount : ℚ
  description : String
  date : String
  dueDate : String
  status : String
  notes : String
  accountId : Option String
  createdAt : String
deriving DecidableEq, Repr

/-- A stored savings goal. -/
structure SavingsGoal where
  id : String
  name : String
  targetAmount : ℚ
  currentAmount : ℚ
  targetDate : String
  description : String
  createdAt : String
deriving DecidableEq, Repr

/-- A stored category. -/
structure Category where
  id : String
  name : String
  type : String
  icon : String
  color : String
deriving DecidableEq, Repr

/-- A stored person. -/
structure Person where
  id : String
  name : String
  phone : String
  email : String
  notes : String
  createdAt : String
deriving DecidableEq, Repr

/-- The six persisted collections of `FinanceStorage`. -/
structure State where
  accounts : List Account
  transactions : List Transaction
  debts : List Debt
  savings : List SavingsGoal
  categories : List Category
  people : List Person
deriving DecidableEq, Repr

/-- The state with every collection empty. -/
def emptyState : State :=
  ⟨[], [], [], [], [], []⟩

/-- Apply `f` to the first element satisfying `p`, leave the rest unchanged;
this is the effect of `findIndex` followed by an in-place mutation and a
write-back of the whole collection. -/
def updateFirst (p : α → Bool) (f : α → α) : List α → List α
  | [] => []
  | x :: xs => if p x then f x :: xs else x :: updateFirst p f xs

/-- `_findAccount(accountIdOrName)`: first account matching by id, else first
matching by name, else null. -/
def findAccount (accounts : List Account) (ref : String) : Option Account :=
  match accounts.find? (fun a => a.id == ref) with
  | some a => some a
  | none => accounts.find? (fun a => a.name == ref)

/-- `_setAccountBalance(accountId, newBalance)`: find the first account whose
id or name equals the reference; when found, overwrite its balance with
`_parseAmount(newBalance)` and persist; when not found, do nothing. -/
def setAccountBalance (s : State) (accountId : String) (newBalance : JNum) : State :=
  { s with accounts :=
      (updateFirst (fun a => a.id == accountId || a.name == accountId)
        (fun a => { a with balance := parseAmountNum newBalance }) s.accounts) }

/-- Argument object of `addAccount`; `balance` and `createdAt` default to
null. -/
structure AccountInput where
  name : String
  type : String
  initialBalance : JSVal
  balance : Option JSVal
  createdAt : Option String
deriving DecidableEq, Repr

/-- `addAccount`: build the account (trimmed name, parsed initial balance,
balance defaulting to the parsed initial balance when the argument is null)
and append it; there is no validation of any field. -/
def addAccount (s : State) (inp : AccountInput) (freshId : String) (nowIso : String) :
    Account × State :=
  let acc : Account :=
    { id := freshId
      name := jsTrim inp.name
      type := inp.type
      initialBalance := parseAmount inp.initialBalance
      balance :=
        match inp.balance with
        | none => parseAmount inp.initialBalance
        | some b => parseAmount b
      createdAt := inp.createdAt.getD nowIso }
  (acc, { s with accounts := s.accounts ++ [acc] })

/-- Argument object of `updateAccount`: each field absent (`none`) when not
supplied. -/
structure AccountUpdate where
  name : Option String
  type : Option String
  balance : Option JSVal
deriving DecidableEq, Repr

/-- `updateAccount(accountId, {name, type, balance})`: false when no account
has the id; otherwise update name and type when truthy (non-empty), and the
balance only when the argument is non-null and passes the global `isFinite`,
in which case it is stored parsed. -/
def updateAccount (s : State) (accountId : String) (u : AccountUpdate) : Bool × State :=
  match s.accounts.find? (fun a => a.id == accountId) with
  | none => (false, s)
  | some _ =>
    let f : Account → Account := fun a =>
      let a1 :=
        match u.name with
        | some n => if n == "" then a else { a with name := n }
        | none => a
      let a2 :=
        match u.type with
        | some t => if t == "" then a1 else { a1 with type := t }
        | none => a1
      match u.balance with
      | some b => if jsIsFinite b then { a2 with balance := parseAmount b } else a2
      | none => a2
    (true, { s with accounts := updateFirst (fun a => a.id == accountId) f s.accounts })

/-- Ascending comparison on transaction dates, the sort comparator
`new Date(a.date) - new Date(b.date)`. -/
def txLe (a b : Transaction) : Bool :=
  a.date.ms ≤ b.date.ms

/-- `getTransactions()`: all stored transactions sorted ascending by date
(stable, as `Array.prototype.sort` is). -/
def getTransactions (s : State) : List Transaction :=
  s.transactions.mergeSort txLe

/-- `deleteAccount(accountId)`: refuse when some transaction references the
id; otherwise remove every account with that id. -/
def deleteAccount (s : State) (accountId : String) : Bool × State :=
  let tx := getTransactions s
  if tx.any (fun t => t.accountId == accountId) then (false, s)
  else (true, { s with accounts := s.accounts.filter (fun a => a.id != accountId) })

/-- Argument object of `addTransaction`. -/
structure TxInput where
  type : String
  amount : JSVal
  description : String
  category : String
  account : String
  date : Civil
  notes : String
  createdAt : Option String
deriving DecidableEq, Repr

/-- `addTransaction`: resolve the account by id-or-name (throw when none),
parse the amount, apply the signed delta (`+` for income, `-` otherwise) to
the resolved account's balance through `_setAccountBalance`, then append the
transaction record. -/
def addTransaction (s : State) (inp : TxInput) (freshId : String) (nowIso : String) :
    Except String (Transaction × State) :=
  let txs := getTransactions s
  match findAccount s.accounts inp.account with
  | none => .error "الحساب المحدد غير موجود"
  | some acc =>
    let amt := parseAmount inp.amount
    let tx : Transaction :=
      { id := freshId
        type := inp.type
        amount := amt
        description := jsTrim inp.description
        category := inp.category
        accountId := acc.id
        accountName := acc.name
        date := inp.date
        notes := inp.notes
        createdAt := inp.createdAt.getD nowIso }
    let delta := if inp.type == "income" then amt else -amt
    let s1 := setAccountBalance s acc.id (.fin (jsOrZero acc.balance + delta))
    .ok (tx, { s1 with transactions := txs ++ [tx] })

/-- `getTransactionsByPeriod(period)`: everything, reversed, for "all";
otherwise the date-sorted list filtered to dates on or after the period
start, reversed (so most recent first). -/
def getTransactionsByPeriod (s : State) (period : String) (now : Now) : List Transaction :=
  let all := getTransactions s
  if period == "all" then all.reverse
  else
    let start := startOfPeriod period now
    (all.filter (fun t => start ≤ t.date.ms)).reverse

/-- Account resolution inside `payDebt`/`receiveDebt`: the passed reference
first; when that resolves to nothing, fall back to the debt's own `accountId`
when it is non-null. -/
def resolveDebtAccount (s : State) (d : Debt) (ref : String) : Option Account :=
  match findAccount s.accounts ref with
  | some a => some a
  | none =>
    match d.accountId with
    | some aid => findAccount s.accounts aid
    | none => none

/-- The remaining-amount and status update shared by `payDebt` and
`receiveDebt`: paying at least the remaining amount clamps to 0 with status
"paid"; otherwise the remainder is reduced and the status becomes
"partial". -/
def settleDebt (d : Debt) (amt : ℚ) : Debt :=
  if amt ≥ d.amount then { d with status := "paid", amount := 0 }
  else { d with amount := parseAmountNum (.fin (d.amount - amt)), status := "partial" }

/-- `payDebt(debtId, amount, accountNameOrId)`: false when the debt id is
unknown or no account resolves; otherwise withdraw the parsed amount from the
resolved account and apply the shared settlement update to the debt. -/
def payDebt (s : State) (debtId : String) (amount : JSVal) (accRef : String) :
    Bool × State :=
  let amt := parseAmount amount
  match s.debts.find? (fun x => x.id == debtId) with
  | none => (false, s)
  | some d =>
    match resolveDebtAccount s d accRef with
    | none => (false, s)
    | some acc =>
      let s1 := setAccountBalance s acc.id (.fin (jsOrZero acc.balance - amt))
      (true, { s1 with debts := updateFirst (fun x => x.id == debtId) (fun _ => settleDebt d amt) s1.debts })

/-- `receiveDebt(debtId, amount, accountNameOrId)`: like `payDebt` but the
parsed amount is deposited into the resolved account. -/
def receiveDebt (s : State) (debtId : String) (amount : JSVal) (accRef : String) :
    Bool × State :=
  let amt := parseAmount amount
  match s.debts.find? (fun x => x.id == debtId) with
  | none => (false, s)
  | some d =>
    match resolveDebtAccount s d accRef with
    | none => (false, s)
    | some acc =>
      let s1 := setAccountBalance s acc.id (.fin (jsOrZero acc.balance + amt))
      (true, { s1 with debts := updateFirst (fun x => x.id == debtId) (fun _ => settleDebt d amt) s1.debts })

/-- Argument object of `addCategory`. -/
structure CategoryInput where
  name : String
  type : String
  icon : String
  color : String
deriving DecidableEq, Repr

/-- `addCategory`: when a category with the same raw name and type exists,
return the first such; otherwise append a new category whose stored name is
trimmed. -/
def addCategory (s : State) (inp : CategoryInput) (freshId : String) : Category × State :=
  match s.categories.find? (fun c => c.name == inp.name && c.type == inp.type) with
  | some c => (c, s)
  | none =>
    let c : Category :=
      { id := freshId, name := jsTrim inp.name, type := inp.type
        icon := inp.icon, color := inp.color }
    (c, { s with categories := s.categories ++ [c] })

/-- Argument object of `addPerson`. -/
structure PersonInput where
  name : String
  phone : String
  email : String
  notes : String
deriving DecidableEq, Repr

/-- `addPerson`: when a person with the same raw name exists, return the
first such; otherwise append a new person whose stored name is trimmed. -/
def addPerson (s : State) (inp : PersonInput) (freshId : String) (nowIso : String) :
    Person × State :=
  match s.people.find? (fun p => p.name == inp.name) with
  | some p => (p, s)
  | none =>
    let p : Person :=
      { id := freshId, name := jsTrim inp.name, phone := inp.phone
        email := inp.email, notes := inp.notes, createdAt := nowIso }
    (p, { s with people := s.people ++ [p] })

/-- The signed contribution of one transaction input: `+amount` for income,
`-amount` otherwise. -/
def signedAmount (i : TxInput) : ℚ :=
  if i.type == "income" then parseAmount i.amount else -(parseAmount i.amount)

/-- Sum of the signed amounts of a sequence of transaction inputs. -/
def signedSum (l : List TxInput) : ℚ :=
  (l.map signedAmount).sum

/-- Run a sequence of `addTransaction` calls, each with its fresh id,
propagating the thrown error of any failing call. -/
def addTransactions (nowIso : String) : State → List (TxInput × String) → Except String State
  | s, [] => .ok s
  | s, (i, fid) :: rest =>
    match addTransaction s i fid nowIso with
    | .error e => .error e
    | .ok (_, s1) => addTransactions nowIso s1 rest

/-- The sequence hypothesis of the balance-invariant claim: every call in the
sequence resolves its account reference to the account with the given id (in
the state the call actually runs in). -/
def ResolvesAllTo (aid : String) (nowIso : String) : State → List (TxInput × String) → Prop
  | _, [] => True
  | s, (i, fid) :: rest =>
    ∃ acc, findAccount s.accounts i.account = some acc ∧ acc.id = aid ∧
      match addTransaction s i fid nowIso with
      | .ok pr => ResolvesAllTo aid nowIso pr.2 rest
      | .error _ => False

/-! Helper lemmas. -/

theorem jsOrZero_eq (q : ℚ) : jsOrZero q = q := by
  unfold jsOrZero
  split
  case isTrue h => exact h.symm
  case isFalse h => rfl

theorem parseAmountNum_fin (q : ℚ) : parseAmountNum (.fin q) = q := rfl

theorem updateFirst_eq_of_none {p : α → Bool} {f : α → α} {l : List α}
    (h : ∀ x ∈ l, ¬ p x = true) : updateFirst p f l = l := by
  induction l with
  | nil => rfl
  | cons x xs ih =>
    have hx : ¬ p x = true := h x (List.mem_cons_self x xs)
    simp only [updateFirst, if_neg hx]
    rw [ih (fun y hy => h y (List.mem_cons_of_mem x hy))]

theorem updateFirst_append {p : α → Bool} {f : α → α} {l1 l2 : List α}
    (h : ∀ x ∈ l1, ¬ p x = true) :
    updateFirst p f (l1 ++ l2) = l1 ++ updateFirst p f l2 := by
  induction l1 with
  | nil => rfl
  | cons x xs ih =>
    have hx : ¬ p x = true := h x (List.mem_cons_self x xs)
    simp only [List.cons_append, updateFirst, if_neg hx]
    rw [show xs.append l2 = xs ++ l2 from rfl,
      ih (fun y hy => h y (List.mem_cons_of_mem x hy))]

theorem updateFirst_cons_pos {p : α → Bool} {f : α → α} {x : α} {xs : List α}
    (h : p x = true) : updateFirst p f (x :: xs) = f x :: xs := by
  simp only [updateFirst, if_pos h]

theorem find?_updateFirst {p : α → Bool} {f : α → α} {l : List α} {d : α}
    (h : l.find? p = some d) (hfd : p (f d) = true) :
    (updateFirst p f l).find? p = some (f d) := by
  induction l with
  | nil => simp at h
  | cons x xs ih =>
    by_cases hx : p x = true
    · rw [updateFirst_cons_pos hx]
      rw [List.find?_cons_of_pos _ hx] at h
      injection h with h
      subst h
      simp [List.find?_cons_of_pos, hfd]
    · simp only [updateFirst, if_neg hx]
      rw [List.find?_cons_of_neg _ hx] at h
      rw [List.find?_cons_of_neg _ hx]
      exact ih h

theorem updateFirst_id {p : α → Bool} {l : List α} :
    updateFirst p (fun a => a) l = l := by
  induction l with
  | nil => rfl
  | cons x xs ih =>
    by_cases hx : p x = true
    · rw [updateFirst_cons_pos hx]
    · simp only [updateFirst, if_neg hx]
      rw [ih]

theorem mem_updateFirst {p : α → Bool} {f : α → α} {l : List α} {a : α}
    (h : a ∈ updateFirst p f l) : a ∈ l ∨ ∃ b ∈ l, a = f b := by
  induction l with
  | nil => simp [updateFirst] at h
  | cons x xs ih =>
    by_cases hx : p x = true
    · rw [updateFirst_cons_pos hx] at h
      rcases List.mem_cons.mp h with h1 | h1
      · exact Or.inr ⟨x, List.mem_cons_self x xs, h1⟩
      · exact Or.inl (List.mem_cons_of_mem x h1)
    · simp only [updateFirst, if_neg hx] at h
      rcases List.mem_cons.mp h with h1 | h1
      · exact Or.inl (h1 ▸ List.mem_cons_self x xs)
      · rcases ih h1 with h2 | ⟨b, hb, hab⟩
        · exact Or.inl (List.mem_cons_of_mem x h2)
        · exact Or.inr ⟨b, List.mem_cons_of_mem x hb, hab⟩

section

attribute [local semireducible] Rat.add Rat.mul Rat.sub Rat.inv

/-! Concrete fixtures used by witnesses and counterexamples. -/

/-- A single cash account with id `a1` and balance 5. -/
def accW : Account :=
  { id := "a1", name := "Cash", type := "cash", initialBalance := 5, balance := 5,
    createdAt := "t0" }

/-- A state holding just the account `accW`. -/
def stateW : State :=
  { emptyState with accounts := [accW] }

/-- `accW` after its balance was overwritten with 0. -/
def accWzero : Account :=
  { accW with balance := 0 }

/-! Claim C10. -/

/-- Claim C10: after every write through the internal balance setter the
stored balance is `_parseAmount` of the computed value, hence always a finite
number: a NaN or infinite computation is replaced by 0 while finite values
pass through unchanged, and untouched accounts keep their old record. -/
theorem c10_setter_stores_finite (s : State) (ref : String) (v : JNum) :
    (∀ a ∈ (setAccountBalance s ref v).accounts,
      a ∈ s.accounts ∨ a.balance = parseAmountNum v) ∧
    parseAmountNum JNum.nan = 0 ∧ parseAmountNum JNum.inf = 0 ∧
    parseAmountNum JNum.ninf = 0 ∧ ∀ q : ℚ, parseAmountNum (JNum.fin q) = q := by
  refine ⟨?_, rfl, rfl, rfl, fun q => rfl⟩
  intro a ha
  simp only [setAccountBalance] at ha
  rcases mem_updateFirst ha with h | ⟨b, _, hab⟩
  · exact Or.inl h
  · exact Or.inr (by rw [hab])

/-- Witness for C10 at a concrete state: writing NaN stores 0. -/
theorem c10_witness :
    parseAmountNum JNum.nan = 0 ∧
    (accWzero ∈ stateW.accounts ∨ accWzero.balance = parseAmountNum JNum.nan) := by
  have h := c10_setter_stores_finite stateW "a1" JNum.nan
  exact ⟨h.2.1, h.1 accWzero (by decide)⟩

/-! Claim C4. -/

/-- Claim C4 counterexample: `_parseAmount` deletes the non-numeric
characters of "12abc34" and parses the concatenation, yielding 1234 rather
than the first numeric substring 12; and `updateAccount` does not apply this
normalization to its balance override: the non-numeric string is rejected by
its `isFinite` guard and the state is left unchanged. -/
theorem c4_counterexample :
    parseAmount (JSVal.str "12abc34") = 1234 ∧
    parseAmount (JSVal.str "12abc34") ≠ 12 ∧
    (updateAccount stateW "a1"
      { name := none, type := none, balance := some (JSVal.str "12abc34") }).2
      = stateW := by
  refine ⟨by decide, by decide, by decide⟩

/-- Claim C4 amended: `_parseAmount` totalises every input to a finite
rational: finite numbers pass through, NaN and infinities become 0, and a
string is stripped of every character other than digits, dots and minus
signs before `parseFloat` reads the longest numeric prefix of the remainder
(so "12abc34" gives 1234), with 0 when nothing parses.  `updateAccount`'s
balance override, however, first requires the raw value to pass the global
`isFinite` test: a value failing it leaves the state unchanged, while a
passing value is stored normalized through `_parseAmount`. -/
theorem c4_amended :
    (∀ q : ℚ, parseAmount (JSVal.num (JNum.fin q)) = q) ∧
    parseAmount (JSVal.num JNum.nan) = 0 ∧
    parseAmount (JSVal.num JNum.inf) = 0 ∧
    parseAmount (JSVal.str "12abc34") = 1234 ∧
    parseAmount (JSVal.str "abc") = 0 ∧
    parseAmount (JSVal.str "12.5kg") = 25 / 2 ∧
    (∀ (s : State) (accId : String) (b : JSVal), jsIsFinite b = false →
      (updateAccount s accId { name := none, type := none, balance := some b }).2 = s) ∧
    (∀ (s : State) (accId : String) (b : JSVal) (a0 : Account), jsIsFinite b = true →
      s.accounts.find? (fun a => a.id == accId) = some a0 →
      (updateAccount s accId
        { name := none, type := none, balance := some b }).2.accounts.find?
          (fun a => a.id == accId) = some { a0 with balance := parseAmount b }) := by
  refine ⟨fun q => rfl, rfl, rfl, by decide, by decide, by decide, ?_, ?_⟩
  · intro s accId b hb
    unfold updateAccount
    cases hf : s.accounts.find? (fun a => a.id == accId) with
    | none => rfl
    | some a0 =>
      simp only [hb, Bool.false_eq_true, if_false]
      rw [updateFirst_id]
  · intro s accId b a0 hb hf
    unfold updateAccount
    rw [hf]
    simp only [hb, if_true]
    have hpa0 := List.find?_some hf
    exact find?_updateFirst hf hpa0

/-- Witness for C4 amended: concrete finite and skipped balance updates. -/
theorem c4_amended_witness :
    (updateAccount stateW "a1"
      { name := none, type := none, balance := some (JSVal.str "12abc34") }).2 = stateW ∧
    (updateAccount stateW "a1"
      { name := none, type := none, balance := some (JSVal.str "150") }).2.accounts.find?
        (fun a => a.id == "a1") = some { accW with balance := parseAmount (JSVal.str "150") } := by
  have h := c4_amended
  exact ⟨h.2.2.2.2.2.2.1 stateW "a1" (JSVal.str "12abc34") (by decide),
    h.2.2.2.2.2.2.2 stateW "a1" (JSVal.str "150") accW (by decide) (by decide)⟩

/-! Claim C8. -/

/-- Claim C8 counterexample: `addAccount` called with an empty name on the
empty state is not a no-op: an account is appended. -/
theorem c8_counterexample :
    ((addAccount emptyState
      { name := "", type := "cash", initialBalance := JSVal.num (JNum.fin 0),
        balance := none, createdAt := none } "a1" "t0").2).accounts.length = 1 := by
  decide

/-- Claim C8 amended: `addAccount` performs no name validation: even with an
empty name it appends a new account (whose stored, trimmed name is empty) —
pre-validating the name is the caller's contract, enforced by the UI layer,
not by the store. -/
theorem c8_amended (s : State) (inp : AccountInput) (fid nowIso : String)
    (hname : inp.name = "") :
    (addAccount s inp fid nowIso).2.accounts
      = s.accounts ++ [(addAccount s inp fid nowIso).1] ∧
    (addAccount s inp fid nowIso).1.name = "" := by
  refine ⟨rfl, ?_⟩
  show jsTrim inp.name = ""
  rw [hname]
  decide

/-- Witness for C8 amended at a concrete empty-name call. -/
theorem c8_amended_witness :
    (addAccount emptyState
      { name := "", type := "cash", initialBalance := JSVal.num (JNum.fin 0),
        balance := none, createdAt := none } "a1" "t0").2.accounts
      = emptyState.accounts ++ [(addAccount emptyState
        { name := "", type := "cash", initialBalance := JSVal.num (JNum.fin 0),
          balance := none, createdAt := none } "a1" "t0").1] := by
  exact (c8_amended emptyState
    { name := "", type := "cash", initialBalance := JSVal.num (JNum.fin 0),
      balance := none, createdAt := none } "a1" "t0" rfl).1

/-! Claim C6. -/

/-- Claim C6 counterexample: called twice with the name " x " (surrounding
whitespace) and type "expense" on the empty state, `addCategory` appends
twice — the existence check compares the raw name against the stored trimmed
one — so the collection grows and the two returned identifiers differ. -/
theorem c6_counterexample :
    (addCategory (addCategory emptyState
        { name := " x ", type := "expense", icon := "i", color := "c" } "c1").2
      { name := " x ", type := "expense", icon := "i", color := "c" } "c2").2.categories.length = 2 ∧
    (addCategory emptyState
      { name := " x ", type := "expense", icon := "i", color := "c" } "c1").2.categories.length = 1 ∧
    (addCategory (addCategory emptyState
        { name := " x ", type := "expense", icon := "i", color := "c" } "c1").2
      { name := " x ", type := "expense", icon := "i", color := "c" } "c2").1.id ≠
    (addCategory emptyState
      { name := " x ", type := "expense", icon := "i", color := "c" } "c1").1.id := by
  refine ⟨by decide, by decide, by decide⟩

/-- Claim C6 amended: for names that carry no surrounding whitespace (name
unchanged by trim), `addCategory` is idempotent by (name, type) and
`addPerson` by name: the second identical call returns the same entry — in
particular the same identifier — and leaves the state, hence the collection
length, unchanged. -/
theorem c6_amended (s : State) (cinp : CategoryInput) (pinp : PersonInput)
    (fid1 fid2 gid1 gid2 niso1 niso2 : String)
    (hc : jsTrim cinp.name = cinp.name) (hp : jsTrim pinp.name = pinp.name) :
    (addCategory (addCategory s cinp fid1).2 cinp fid2).1
      = (addCategory s cinp fid1).1 ∧
    (addCategory (addCategory s cinp fid1).2 cinp fid2).2
      = (addCategory s cinp fid1).2 ∧
    (addPerson (addPerson s pinp gid1 niso1).2 pinp gid2 niso2).1
      = (addPerson s pinp gid1 niso1).1 ∧
    (addPerson (addPerson s pinp gid1 niso1).2 pinp gid2 niso2).2
      = (addPerson s pinp gid1 niso1).2 := by
  have hcat : addCategory (addCategory s cinp fid1).2 cinp fid2
      = ((addCategory s cinp fid1).1, (addCategory s cinp fid1).2) := by
    unfold addCategory
    cases hf : s.categories.find? (fun c => c.name == cinp.name && c.type == cinp.type) with
    | some c => simp [hf]
    | none => simp [hf, List.find?_append, List.find?, hc]
  have hper : addPerson (addPerson s pinp gid1 niso1).2 pinp gid2 niso2
      = ((addPerson s pinp gid1 niso1).1, (addPerson s pinp gid1 niso1).2) := by
    unfold addPerson
    cases hf : s.people.find? (fun p => p.name == pinp.name) with
    | some p => simp [hf]
    | none => simp [hf, List.find?_append, List.find?, hp]
  exact ⟨congrArg Prod.fst hcat, congrArg Prod.snd hcat,
    congrArg Prod.fst hper, congrArg Prod.snd hper⟩

/-- Witness for C6 amended: a trimmed name is idempotent concretely. -/
theorem c6_amended_witness :
    (addCategory (addCategory emptyState
        { name := "x", type := "expense", icon := "i", color := "c" } "c1").2
      { name := "x", type := "expense", icon := "i", color := "c" } "c2").2
      = (addCategory emptyState
        { name := "x", type := "expense", icon := "i", color := "c" } "c1").2 := by
  exact (c6_amended emptyState
    { name := "x", type := "expense", icon := "i", color := "c" }
    { name := "p", phone := "", email := "", notes := "" }
    "c1" "c2" "g1" "g2" "t1" "t2" (by decide) (by decide)).2.1

/-! Claim C5. -/

/-- Claim C5: `deleteAccount` fails and leaves the state unchanged when some
stored transaction references the account id, and otherwise succeeds,
removing every account with that id from the collection. -/
theorem c5_deleteAccount (s : State) (accId : String) :
    ((∃ t ∈ s.transactions, t.accountId = accId) →
      deleteAccount s accId = (false, s)) ∧
    ((∀ t ∈ s.transactions, t.accountId ≠ accId) →
      (deleteAccount s accId).1 = true ∧
      (deleteAccount s accId).2.accounts = s.accounts.filter (fun a => a.id != accId) ∧
      ∀ a ∈ (deleteAccount s accId).2.accounts, a.id ≠ accId) := by
  constructor
  · rintro ⟨t, ht, hta⟩
    have hany : (getTransactions s).any (fun t => t.accountId == accId) = true := by
      rw [List.any_eq_true]
      exact ⟨t, by simpa [getTransactions] using ht, by simp [hta]⟩
    unfold deleteAccount
    simp [hany]
  · intro hno
    have hany : (getTransactions s).any (fun t => t.accountId == accId) = false := by
      rw [Bool.eq_false_iff]
      intro hcontra
      rw [List.any_eq_true] at hcontra
      obtain ⟨t, ht, hta⟩ := hcontra
      exact hno t (by simpa [getTransactions] using ht) (by simpa using hta)
    unfold deleteAccount
    simp only [hany, Bool.false_eq_true, if_false]
    refine ⟨trivial, trivial, ?_⟩
    intro a ha
    have := List.mem_filter.mp ha
    simpa using this.2

/-- Witness for C5 at concrete states: a referenced account survives, an
unreferenced one is removed. -/
theorem c5_witness :
    (deleteAccount stateW "a1").1 = true ∧
    (deleteAccount stateW "a1").2.accounts
      = stateW.accounts.filter (fun a => a.id != "a1") := by
  have h := (c5_deleteAccount stateW "a1").2 (by intro t ht _; cases ht)
  exact ⟨h.1, h.2.1⟩

/-! Debt fixtures. -/

/-- A pending debt of 10, linked to account a1. -/
def debtW : Debt :=
  { id := "d1", type := "from-me", personId := "p1", amount := 10,
    description := "", date := "2025-01-01", dueDate := "2025-01-01",
    status := "pending", notes := "", accountId := some "a1", createdAt := "t0" }

/-- Account `accW` together with the pending debt `debtW`. -/
def stateD : State :=
  { emptyState with accounts := [accW], debts := [debtW] }

/-- A debt already settled: amount 0, status paid. -/
def debtPaid : Debt :=
  { debtW with id := "d2", amount := 0, status := "paid" }

/-- Account `accW` together with the settled debt `debtPaid`. -/
def stateDP : State :=
  { emptyState with accounts := [accW], debts := [debtPaid] }

/-! Claim C2. -/

/-- Claim C2: a `payDebt` or `receiveDebt` call that finds its debt and
resolves an account succeeds, and afterwards the stored debt has status
"paid" with amount 0 when the parsed amount covers the remaining amount, and
status "partial" with amount reduced by exactly the paid amount otherwise;
the remaining amount is never negative. -/
theorem c2_debt_settlement (s : State) (debtId : String) (v : JSVal) (ref : String)
    (d : Debt) (hd : s.debts.find? (fun x => x.id == debtId) = some d)
    (acc : Account) (hacc : resolveDebtAccount s d ref = some acc) :
    (payDebt s debtId v ref).1 = true ∧
    (receiveDebt s debtId v ref).1 = true ∧
    (∃ d1, (payDebt s debtId v ref).2.debts.find? (fun x => x.id == debtId) = some d1 ∧
      (parseAmount v ≥ d.amount → d1.status = "paid" ∧ d1.amount = 0) ∧
      (parseAmount v < d.amount →
        d1.status = "partial" ∧ d1.amount = d.amount - parseAmount v) ∧
      0 ≤ d1.amount) ∧
    (∃ d1, (receiveDebt s debtId v ref).2.debts.find? (fun x => x.id == debtId) = some d1 ∧
      (parseAmount v ≥ d.amount → d1.status = "paid" ∧ d1.amount = 0) ∧
      (parseAmount v < d.amount →
        d1.status = "partial" ∧ d1.amount = d.amount - parseAmount v) ∧
      0 ≤ d1.amount) := by
  have hsid : (settleDebt d (parseAmount v)).id = d.id := by
    unfold settleDebt
    split <;> rfl
  have hid : ((settleDebt d (parseAmount v)).id == debtId) = true := by
    have hpd := List.find?_some hd
    simp only at hpd
    rw [hsid]
    exact hpd
  have hfind : (updateFirst (fun x => x.id == debtId)
        (fun _ => settleDebt d (parseAmount v)) s.debts).find?
      (fun x => x.id == debtId) = some (settleDebt d (parseAmount v)) :=
    find?_updateFirst hd hid
  have hprops :
      (parseAmount v ≥ d.amount → (settleDebt d (parseAmount v)).status = "paid" ∧
        (settleDebt d (parseAmount v)).amount = 0) ∧
      (parseAmount v < d.amount → (settleDebt d (parseAmount v)).status = "partial" ∧
        (settleDebt d (parseAmount v)).amount = d.amount - parseAmount v) ∧
      0 ≤ (settleDebt d (parseAmount v)).amount := by
    unfold settleDebt
    by_cases hge : parseAmount v ≥ d.amount
    · rw [if_pos hge]
      exact ⟨fun _ => ⟨rfl, rfl⟩, fun hlt => absurd hge (not_le.mpr hlt), le_refl 0⟩
    · rw [if_neg hge]
      have hlt := lt_of_not_ge hge
      refine ⟨fun h => absurd h hge, fun _ => ⟨rfl, rfl⟩, ?_⟩
      show (0 : ℚ) ≤ d.amount - parseAmount v
      linarith
  refine ⟨?_, ?_, ?_, ?_⟩
  · simp [payDebt, hd, hacc]
  · simp [receiveDebt, hd, hacc]
  · refine ⟨settleDebt d (parseAmount v), ?_, hprops.1, hprops.2.1, hprops.2.2⟩
    simp only [payDebt, hd, hacc]
    exact hfind
  · refine ⟨settleDebt d (parseAmount v), ?_, hprops.1, hprops.2.1, hprops.2.2⟩
    simp only [receiveDebt, hd, hacc]
    exact hfind

/-- Witness for C2: paying 4 against the pending debt of 10 succeeds in both
operations. -/
theorem c2_witness :
    (payDebt stateD "d1" (JSVal.num (JNum.fin 4)) "a1").1 = true ∧
    (receiveDebt stateD "d1" (JSVal.num (JNum.fin 4)) "a1").1 = true := by
  have h := c2_debt_settlement stateD "d1" (JSVal.num (JNum.fin 4)) "a1" debtW
    (by decide) accW (by decide)
  exact ⟨h.1, h.2.1⟩

/-! Claim C3. -/

/-- Claim C3 counterexample: a payment with a negative parsed amount makes
the remaining amount grow (10 becomes 15), and applied to an already settled
debt it moves the status away from "paid" to "partial" — so the amount is not
monotonically non-increasing and "paid" is not terminal. -/
theorem c3_counterexample :
    (payDebt stateD "d1" (JSVal.num (JNum.fin (-5))) "a1").2.debts.map Debt.amount
      = [15] ∧
    ¬ ((15 : ℚ) ≤ 10) ∧
    (payDebt stateDP "d2" (JSVal.num (JNum.fin (-5))) "a1").2.debts.map Debt.status
      = ["partial"] := by
  refine ⟨by decide, by decide, by decide⟩

/-- Claim C3 amended: restricted to non-negative parsed amounts and debts
with non-negative remaining amount — which every debt reachable through
parsed non-negative inputs has — a successful `payDebt`/`receiveDebt` call
never increases the remaining amount, the amount is 0 exactly when the
status is "paid", and a settled debt (status "paid", amount 0) stays
settled. -/
theorem c3_amended (s : State) (debtId : String) (v : JSVal) (ref : String)
    (d : Debt) (hd : s.debts.find? (fun x => x.id == debtId) = some d)
    (acc : Account) (hacc : resolveDebtAccount s d ref = some acc)
    (hv : 0 ≤ parseAmount v) (hd0 : 0 ≤ d.amount) :
    (∃ d1, (payDebt s debtId v ref).2.debts.find? (fun x => x.id == debtId) = some d1 ∧
      d1.amount ≤ d.amount ∧ (d1.amount = 0 ↔ d1.status = "paid") ∧
      (d.status = "paid" ∧ d.amount = 0 → d1.status = "paid" ∧ d1.amount = 0)) ∧
    (∃ d1, (receiveDebt s debtId v ref).2.debts.find? (fun x => x.id == debtId) = some d1 ∧
      d1.amount ≤ d.amount ∧ (d1.amount = 0 ↔ d1.status = "paid") ∧
      (d.status = "paid" ∧ d.amount = 0 → d1.status = "paid" ∧ d1.amount = 0)) := by
  have hsid : (settleDebt d (parseAmount v)).id = d.id := by
    unfold settleDebt
    split <;> rfl
  have hid : ((settleDebt d (parseAmount v)).id == debtId) = true := by
    have hpd := List.find?_some hd
    simp only at hpd
    rw [hsid]
    exact hpd
  have hfind : (updateFirst (fun x => x.id == debtId)
        (fun _ => settleDebt d (parseAmount v)) s.debts).find?
      (fun x => x.id == debtId) = some (settleDebt d (parseAmount v)) :=
    find?_updateFirst hd hid
  have hprops :
      (settleDebt d (parseAmount v)).amount ≤ d.amount ∧
      ((settleDebt d (parseAmount v)).amount = 0 ↔
        (settleDebt d (parseAmount v)).status = "paid") ∧
      (d.status = "paid" ∧ d.amount = 0 →
        (settleDebt d (parseAmount v)).status = "paid" ∧
        (settleDebt d (parseAmount v)).amount = 0) := by
    unfold settleDebt
    by_cases hge : parseAmount v ≥ d.amount
    · rw [if_pos hge]
      exact ⟨hd0, iff_of_true rfl rfl, fun _ => ⟨rfl, rfl⟩⟩
    · rw [if_neg hge]
      have hlt := lt_of_not_ge hge
      have hpos : (0 : ℚ) < d.amount - parseAmount v := by linarith
      refine ⟨?_, ?_, ?_⟩
      · show d.amount - parseAmount v ≤ d.amount
        linarith
      · refine iff_of_false ?_ ?_
        · show ¬ d.amount - parseAmount v = 0
          intro h0
          rw [h0] at hpos
          exact lt_irrefl 0 hpos
        · intro hpp
          have hpp2 : ("partial" : String) = "paid" := hpp
          exact absurd hpp2 (by decide)
      · rintro ⟨_, hz⟩
        rw [hz] at hlt
        exact absurd hlt (not_lt.mpr hv)
  refine ⟨?_, ?_⟩
  · refine ⟨settleDebt d (parseAmount v), ?_, hprops.1, hprops.2.1, hprops.2.2⟩
    simp only [payDebt, hd, hacc]
    exact hfind
  · refine ⟨settleDebt d (parseAmount v), ?_, hprops.1, hprops.2.1, hprops.2.2⟩
    simp only [receiveDebt, hd, hacc]
    exact hfind

/-- Witness for C3 amended: a non-negative payment on the settled debt keeps
it settled. -/
theorem c3_amended_witness :
    ∃ d1, (payDebt stateDP "d2" (JSVal.num (JNum.fin 3)) "a1").2.debts.find?
      (fun x => x.id == "d2") = some d1 ∧ d1.amount ≤ debtPaid.amount := by
  have h := c3_amended stateDP "d2" (JSVal.num (JNum.fin 3)) "a1" debtPaid
    (by decide) accW (by decide) (by decide) (by decide)
  obtain ⟨⟨d1, hfind, hle, _, _⟩, _⟩ := h
  exact ⟨d1, hfind, hle⟩

/-! Claim C9. -/

/-- Claim C9: `payDebt` and `receiveDebt` fall back to the debt's own
`accountId` when the passed reference resolves to no account; they return
false exactly when the debt id is unknown or both the reference and the
fallback fail to resolve, and every false return leaves the whole state
unchanged. -/
theorem c9_resolution_fallback (s : State) (debtId : String) (v : JSVal) (ref : String) :
    ((payDebt s debtId v ref).1 = false ↔
      s.debts.find? (fun x => x.id == debtId) = none ∨
      (∃ d, s.debts.find? (fun x => x.id == debtId) = some d ∧
        resolveDebtAccount s d ref = none)) ∧
    ((payDebt s debtId v ref).1 = false → (payDebt s debtId v ref).2 = s) ∧
    ((receiveDebt s debtId v ref).1 = false ↔
      s.debts.find? (fun x => x.id == debtId) = none ∨
      (∃ d, s.debts.find? (fun x => x.id == debtId) = some d ∧
        resolveDebtAccount s d ref = none)) ∧
    ((receiveDebt s debtId v ref).1 = false → (receiveDebt s debtId v ref).2 = s) ∧
    (∀ d : Debt, resolveDebtAccount s d ref = none ↔
      findAccount s.accounts ref = none ∧
      (d.accountId = none ∨
        ∃ aid, d.accountId = some aid ∧ findAccount s.accounts aid = none)) ∧
    (∀ (d : Debt) (acc : Account) (aid : String),
      s.debts.find? (fun x => x.id == debtId) = some d →
      findAccount s.accounts ref = none → d.accountId = some aid →
      findAccount s.accounts aid = some acc →
      (payDebt s debtId v ref).1 = true ∧ (receiveDebt s debtId v ref).1 = true) := by
  have hres : ∀ d : Debt, resolveDebtAccount s d ref = none ↔
      findAccount s.accounts ref = none ∧
      (d.accountId = none ∨
        ∃ aid, d.accountId = some aid ∧ findAccount s.accounts aid = none) := by
    intro d
    cases hf : findAccount s.accounts ref with
    | some a => simp [resolveDebtAccount, hf]
    | none =>
      cases ha : d.accountId with
      | none => simp [resolveDebtAccount, hf, ha]
      | some aid =>
        cases h2 : findAccount s.accounts aid with
        | some a => simp [resolveDebtAccount, hf, ha, h2]
        | none => simp [resolveDebtAccount, hf, ha, h2]
  cases hd : s.debts.find? (fun x => x.id == debtId) with
  | none =>
    have h1 : payDebt s debtId v ref = (false, s) := by simp [payDebt, hd]
    have h2 : receiveDebt s debtId v ref = (false, s) := by simp [receiveDebt, hd]
    refine ⟨?_, ?_, ?_, ?_, hres, ?_⟩
    · rw [h1]
      exact iff_of_true rfl (Or.inl rfl)
    · intro _
      rw [h1]
    · rw [h2]
      exact iff_of_true rfl (Or.inl rfl)
    · intro _
      rw [h2]
    · intro d acc aid hd2 _ _ _
      cases hd2
  | some d0 =>
    cases hra : resolveDebtAccount s d0 ref with
    | none =>
      have h1 : payDebt s debtId v ref = (false, s) := by simp [payDebt, hd, hra]
      have h2 : receiveDebt s debtId v ref = (false, s) := by simp [receiveDebt, hd, hra]
      refine ⟨?_, ?_, ?_, ?_, hres, ?_⟩
      · rw [h1]
        exact iff_of_true rfl (Or.inr ⟨d0, rfl, hra⟩)
      · intro _
        rw [h1]
      · rw [h2]
        exact iff_of_true rfl (Or.inr ⟨d0, rfl, hra⟩)
      · intro _
        rw [h2]
      · intro d acc aid hd2 hfr hdid hfa
        injection hd2 with he
        subst he
        have hsome : resolveDebtAccount s d0 ref = some acc := by
          simp [resolveDebtAccount, hfr, hdid, hfa]
        rw [hra] at hsome
        cases hsome
    | some acc0 =>
      have h1 : (payDebt s debtId v ref).1 = true := by simp [payDebt, hd, hra]
      have h2 : (receiveDebt s debtId v ref).1 = true := by simp [receiveDebt, hd, hra]
      refine ⟨?_, ?_, ?_, ?_, hres, ?_⟩
      · rw [h1]
        refine iff_of_false (by simp) ?_
        rintro (hnone | ⟨d2, hd2, hr2⟩)
        · cases hnone
        · injection hd2 with he
          subst he
          rw [hra] at hr2
          cases hr2
      · intro hfalse
        rw [h1] at hfalse
        cases hfalse
      · rw [h2]
        refine iff_of_false (by simp) ?_
        rintro (hnone | ⟨d2, hd2, hr2⟩)
        · cases hnone
        · injection hd2 with he
          subst he
          rw [hra] at hr2
          cases hr2
      · intro hfalse
        rw [h2] at hfalse
        cases hfalse
      · intro d acc aid _ _ _ _
        exact ⟨h1, h2⟩

/-- Witness for C9: an unknown debt id returns false and leaves the state
unchanged; a bad account reference still succeeds through the debt's own
accountId. -/
theorem c9_witness :
    (payDebt stateD "zz" (JSVal.num (JNum.fin 1)) "a1").2 = stateD ∧
    (payDebt stateD "d1" (JSVal.num (JNum.fin 1)) "nope").1 = true := by
  have h1 := c9_resolution_fallback stateD "zz" (JSVal.num (JNum.fin 1)) "a1"
  have h2 := c9_resolution_fallback stateD "d1" (JSVal.num (JNum.fin 1)) "nope"
  refine ⟨h1.2.1 (by decide), ?_⟩
  exact (h2.2.2.2.2.2 debtW accW "a1" (by decide) (by decide) (by decide) (by decide)).1

/-! Claim C1. -/

theorem findAccount_mem {l : List Account} {ref : String} {a : Account}
    (h : findAccount l ref = some a) : a ∈ l := by
  unfold findAccount at h
  cases hf : l.find? (fun x => x.id == ref) with
  | some b =>
    rw [hf] at h
    injection h with h
    subst h
    exact List.mem_of_find?_eq_some hf
  | none =>
    rw [hf] at h
    exact List.mem_of_find?_eq_some h

/-- Balance bookkeeping along a sequence of `addTransaction` calls: when the
accounts list is a prefix of foreign accounts (matching the tracked account
neither by id nor by name) followed by the tracked account, and every call
resolves to the tracked id, the final list keeps the same shape and the
tracked account has gained exactly the signed sum of the sequence, its id,
name and initialBalance untouched. -/
theorem addTransactions_balance (fid tniso : String) (txs : List (TxInput × String)) :
    ∀ (s : State) (pre : List Account) (a : Account),
      s.accounts = pre ++ [a] →
      (∀ b ∈ pre, b.id ≠ fid ∧ b.name ≠ fid) →
      a.id = fid →
      ResolvesAllTo fid tniso s txs →
      ∀ sF, addTransactions tniso s txs = .ok sF →
      ∃ a2 : Account, sF.accounts = pre ++ [a2] ∧ a2.id = fid ∧
        a2.initialBalance = a.initialBalance ∧ a2.name = a.name ∧
        a2.balance = a.balance + signedSum (txs.map Prod.fst) := by
  induction txs with
  | nil =>
    intro s pre a hacc hpre haid _ sF hF
    have hF2 : Except.ok (ε := String) s = .ok sF := hF
    injection hF2 with h
    subst h
    refine ⟨a, hacc, haid, rfl, rfl, ?_⟩
    simp [signedSum]
  | cons hd rest ih =>
    obtain ⟨i, fid1⟩ := hd
    intro s pre a hacc hpre haid hres sF hF
    simp only [ResolvesAllTo] at hres
    obtain ⟨acc, hfind, haccid, hres2⟩ := hres
    have hacc_mem : acc ∈ pre ++ [a] := hacc ▸ findAccount_mem hfind
    have hacc_eq : acc = a := by
      rcases List.mem_append.mp hacc_mem with hmem | hmem
      · exact absurd haccid ((hpre acc hmem).1)
      · simpa using hmem
    subst hacc_eq
    simp only [addTransaction, hfind, addTransactions] at hres2 hF
    set tx : Transaction :=
      { id := fid1, type := i.type, amount := parseAmount i.amount
        description := jsTrim i.description, category := i.category
        accountId := acc.id, accountName := acc.name
        date := i.date, notes := i.notes
        createdAt := i.createdAt.getD tniso } with htx
    set delta : ℚ := if i.type == "income" then parseAmount i.amount else -(parseAmount i.amount)
      with hdelta
    have hdelta_signed : delta = signedAmount i := rfl
    set aMid : Account := { acc with balance := acc.balance + delta } with haMid
    have hpacc : ((fun b : Account => b.id == acc.id || b.name == acc.id) acc) = true := by
      simp
    have hprefail : ∀ b ∈ pre,
        ¬ ((fun b : Account => b.id == acc.id || b.name == acc.id) b = true) := by
      intro b hb
      have hb1 := (hpre b hb).1
      have hb2 := (hpre b hb).2
      simp only [haid]
      simp [hb1, hb2]
    have hupdacc : (setAccountBalance s acc.id
        (.fin (jsOrZero acc.balance + delta))).accounts = pre ++ [aMid] := by
      unfold setAccountBalance
      change updateFirst _ _ s.accounts = pre ++ [aMid]
      rw [hacc, updateFirst_append hprefail]
      simp [updateFirst, haMid, jsOrZero_eq, parseAmountNum]
    obtain ⟨a2, hacc2, hid2, hib2, hname2, hbal2⟩ :=
      ih _ pre aMid (by exact hupdacc) hpre (by rw [haMid]; exact haid) hres2 sF hF
    refine ⟨a2, hacc2, hid2, ?_, ?_, ?_⟩
    · rw [hib2, haMid]
    · rw [hname2, haMid]
    · rw [hbal2, haMid]
      show acc.balance + delta + signedSum (rest.map Prod.fst)
        = acc.balance + signedSum (((i, fid1) :: rest).map Prod.fst)
      have hsum : signedSum (((i, fid1) :: rest).map Prod.fst)
          = signedAmount i + signedSum (rest.map Prod.fst) := by
        simp [signedSum]
      rw [hsum, hdelta_signed]
      ring

/-- Claim C1 counterexample: an account created by `addAccount` with an
explicit balance argument different from its initial balance violates the
invariant already for the empty transaction sequence: the stored balance is
50 while initialBalance plus the (empty) signed sum is 100. -/
theorem c1_counterexample :
    ((addAccount emptyState
      { name := "Cash", type := "cash", initialBalance := JSVal.num (JNum.fin 100),
        balance := some (JSVal.num (JNum.fin 50)), createdAt := none } "a1" "t0").1).balance
      ≠ ((addAccount emptyState
      { name := "Cash", type := "cash", initialBalance := JSVal.num (JNum.fin 100),
        balance := some (JSVal.num (JNum.fin 50)), createdAt := none } "a1" "t0").1).initialBalance
        + signedSum [] := by
  decide

/-- Claim C1 amended: for an account created by `addAccount` with no explicit
balance override (the balance argument null, so it starts at the parsed
initial balance) and a fresh id (colliding with no existing account's id or
name, as `_id` guarantees), after any sequence of `addTransaction` calls that
each resolve to this account, the stored balance equals the initial balance
plus the signed sum of the parsed transaction amounts (income positive,
expense negative). -/
theorem c1_balance_invariant (s0 : State) (inp : AccountInput) (fid niso tniso : String)
    (hbal : inp.balance = none)
    (hfresh : ∀ b ∈ s0.accounts, b.id ≠ fid ∧ b.name ≠ fid)
    (txs : List (TxInput × String))
    (hres : ResolvesAllTo fid tniso (addAccount s0 inp fid niso).2 txs)
    (sF : State) (hF : addTransactions tniso (addAccount s0 inp fid niso).2 txs = .ok sF) :
    ∃ a : Account, sF.accounts.find? (fun b => b.id == fid) = some a ∧
      a.initialBalance = parseAmount inp.initialBalance ∧
      a.balance = a.initialBalance + signedSum (txs.map Prod.fst) := by
  have haccs : (addAccount s0 inp fid niso).2.accounts
      = s0.accounts ++ [(addAccount s0 inp fid niso).1] := rfl
  have hanew_id : (addAccount s0 inp fid niso).1.id = fid := rfl
  have hanew_ib : (addAccount s0 inp fid niso).1.initialBalance
      = parseAmount inp.initialBalance := rfl
  have hanew_bal : (addAccount s0 inp fid niso).1.balance
      = parseAmount inp.initialBalance := by
    show (match inp.balance with
      | none => parseAmount inp.initialBalance
      | some b => parseAmount b) = parseAmount inp.initialBalance
    rw [hbal]
  obtain ⟨a2, hacc2, hid2, hib2, _, hbal2⟩ :=
    addTransactions_balance fid tniso txs _ s0.accounts (addAccount s0 inp fid niso).1
      haccs hfresh hanew_id hres sF hF
  refine ⟨a2, ?_, by rw [hib2, hanew_ib], ?_⟩
  · rw [hacc2, List.find?_append]
    have hn : s0.accounts.find? (fun b => b.id == fid) = none := by
      rw [List.find?_eq_none]
      intro b hb
      simp [(hfresh b hb).1]
    rw [hn]
    simp [List.find?, hid2]
  · rw [hbal2, hanew_bal, hib2, hanew_ib]

/-- Argument object for the C1 witness: account "Cash", initial balance 100,
no balance override. -/
def c1AccInput : AccountInput :=
  { name := "Cash", type := "cash", initialBalance := JSVal.num (JNum.fin 100),
    balance := none, createdAt := none }

/-- Witness for C1 amended at a concrete creation and the empty transaction
sequence. -/
theorem c1_witness :
    ∃ a : Account,
      (addAccount emptyState c1AccInput "a1" "t0").2.accounts.find?
        (fun b => b.id == "a1") = some a ∧
      a.initialBalance = parseAmount c1AccInput.initialBalance ∧
      a.balance = a.initialBalance + signedSum [] := by
  exact c1_balance_invariant emptyState c1AccInput "a1" "t0" "t1" rfl
    (by intro b hb; cases hb) [] trivial _ rfl

/-! Claim C7. -/

theorem txLe_trans_lemma : ∀ a b c : Transaction, txLe a b → txLe b c → txLe a c := by
  intro a b c hab hbc
  simp only [txLe, decide_eq_true_eq] at hab hbc ⊢
  exact le_trans hab hbc

theorem txLe_total_lemma : ∀ a b : Transaction, txLe a b || txLe b a := by
  intro a b
  simp only [txLe, Bool.or_eq_true, decide_eq_true_eq]
  omega

theorem sortedAsc_getTransactions (s : State) :
    (getTransactions s).Pairwise (fun a b => a.date.ms ≤ b.date.ms) := by
  have h : (s.transactions.mergeSort txLe).Pairwise (fun a b => txLe a b = true) :=
    List.sorted_mergeSort txLe_trans_lemma txLe_total_lemma s.transactions
  refine h.imp ?_
  intro a b hab
  simpa [txLe] using hab

theorem sortedDesc_reverse_filter (s : State) (p : Transaction → Bool) :
    (((getTransactions s).filter p).reverse).Pairwise
      (fun a b => b.date.ms ≤ a.date.ms) := by
  rw [List.pairwise_reverse]
  exact List.Pairwise.sublist (List.filter_sublist _) (sortedAsc_getTransactions s)

theorem sortedDesc_reverse_all (s : State) :
    ((getTransactions s).reverse).Pairwise (fun a b => b.date.ms ≤ a.date.ms) := by
  rw [List.pairwise_reverse]
  exact sortedAsc_getTransactions s

theorem byPeriod_perm_filter (s : State) (period : String) (now : Now)
    (h : (period == "all") = false) :
    (getTransactionsByPeriod s period now).Perm
      (s.transactions.filter (fun t => startOfPeriod period now ≤ t.date.ms)) := by
  unfold getTransactionsByPeriod
  rw [h]
  simp only [Bool.false_eq_true, if_false]
  refine (List.reverse_perm _).trans ?_
  exact List.Perm.filter _ (List.mergeSort_perm s.transactions txLe)

/-- Claim C7: for each period the returned list is exactly (as a multiset)
the stored transactions dated on or after the computed period start ("all"
imposing no bound), ordered descending by date; and the period starts are:
midnight of the current day for "day", midnight of the most recent Monday for
"week" (a Monday at most 6 days back), the first calendar day of the current
month for "month", and January 1 of the current year for "year". -/
theorem c7_transactions_by_period (s : State) (now : Now) :
    ((getTransactionsByPeriod s "all" now).Perm s.transactions ∧
      (getTransactionsByPeriod s "all" now).Pairwise
        (fun a b => b.date.ms ≤ a.date.ms)) ∧
    (∀ period, period = "day" ∨ period = "week" ∨ period = "month" ∨ period = "year" →
      (getTransactionsByPeriod s period now).Perm
        (s.transactions.filter (fun t => startOfPeriod period now ≤ t.date.ms)) ∧
      (getTransactionsByPeriod s period now).Pairwise
        (fun a b => b.date.ms ≤ a.date.ms)) ∧
    startOfPeriod "day" now = (Civil.mk now.year (now.month0 + 1) now.dom).ms ∧
    (∃ k : ℤ, startOfPeriod "week" now = k * 86400000 ∧
      (k + 4) % 7 = 1 ∧ k ≤ now.epochDay ∧ now.epochDay - k < 7) ∧
    startOfPeriod "month" now = (Civil.mk now.year (now.month0 + 1) 1).ms ∧
    startOfPeriod "year" now = (Civil.mk now.year 1 1).ms := by
  refine ⟨⟨?_, ?_⟩, ?_, rfl, ?_, rfl, rfl⟩
  · show ((getTransactions s).reverse).Perm s.transactions
    exact (List.reverse_perm _).trans (List.mergeSort_perm s.transactions txLe)
  · exact sortedDesc_reverse_all s
  · intro period hp
    have hne : (period == "all") = false := by
      rcases hp with h | h | h | h <;> subst h <;> decide
    refine ⟨byPeriod_perm_filter s period now hne, ?_⟩
    have hform : getTransactionsByPeriod s period now
        = ((getTransactions s).filter
            (fun t => startOfPeriod period now ≤ t.date.ms)).reverse := by
      unfold getTransactionsByPeriod
      rw [hne]
      simp only [Bool.false_eq_true, if_false]
    rw [hform]
    exact sortedDesc_reverse_filter s _
  · obtain ⟨j, hj⟩ : ∃ j, (now.epochDay + 4) % 7 = j := ⟨(now.epochDay + 4) % 7, rfl⟩
    obtain ⟨k, hk⟩ : ∃ k, (j + 6) % 7 = k := ⟨(j + 6) % 7, rfl⟩
    refine ⟨now.epochDay - ((now.getDay + 6) % 7), rfl, ?_, ?_, ?_⟩
    · unfold Now.getDay
      rw [hj, hk]
      omega
    · unfold Now.getDay
      rw [hj, hk]
      omega
    · unfold Now.getDay
      rw [hj, hk]
      omega

/-- A stored transaction dated 2025-01-02. -/
def txA : Transaction :=
  { id := "t1", type := "income", amount := 50, description := "", category := "c",
    accountId := "a1", accountName := "Cash", date := ⟨2025, 1, 2⟩, notes := "",
    createdAt := "t" }

/-- A stored transaction dated 2025-01-05. -/
def txB : Transaction :=
  { txA with id := "t2", date := ⟨2025, 1, 5⟩ }

/-- A state with two transactions on distinct days. -/
def stateTx : State :=
  { emptyState with accounts := [accW], transactions := [txA, txB] }

/-- A fixed clock: 2025-01-05 (a Sunday), one hour past midnight. -/
def nowW : Now :=
  { year := 2025, month0 := 0, dom := 5, msOfDay := 3600000 }

/-- Witness for C7: a two-transaction state queried for "day" and "all" at a
fixed clock. -/
theorem c7_witness :
    ((getTransactionsByPeriod stateTx "day" nowW).Perm
      (stateTx.transactions.filter
        (fun t => startOfPeriod "day" nowW ≤ t.date.ms)) ∧
      (getTransactionsByPeriod stateTx "day" nowW).Pairwise
        (fun a b => b.date.ms ≤ a.date.ms)) ∧
    (getTransactionsByPeriod stateTx "all" nowW).Perm stateTx.transactions := by
  have h := c7_transactions_by_period stateTx nowW
  exact ⟨h.2.1 "day" (Or.inl rfl), h.1.1⟩

end

end QBFin
